import Mathlib

/-!
Verification of the backend-orchestration helpers of the CDN acceptance-test
harness (`helpers.go` and the constants of `main_test.go`).

The Go code is embedded shallowly: the mutable `CDNBackendServer` struct
becomes a Lean structure with its `*httptest.Server` pointer modelled as an
`Option Unit` (`some ()` when the server is running, `none` when it is nil);
HTTP handlers become functions from requests to an explicit description of
the writes they perform on the `http.ResponseWriter`; `t.Error`/`t.Fatal`
effects, wall-clock sleeps and network round trips become explicit data in
the return values; `log.Fatal` becomes `Option.none`.
-/

namespace CdnAcceptance

/-- An HTTP request as seen by the handlers in `helpers.go`: only the method
and URL path are inspected by `CDNBackendServer.ServeHTTP`. -/
structure Request where
  method : String
  path : String

/-- The observable effect of a Go handler function on its
`http.ResponseWriter`: the response headers it sets (in order, via
`Header().Set`), the status code it writes (Go's `net/http` defaults to 200
when the handler returns without calling `WriteHeader`), and the body bytes
it writes. -/
structure HandlerEffect where
  headerSets : List (String × String)
  status : Nat
  body : String

/-- The handler slot of a `CDNBackendServer`. `dflt` is the empty function
installed by `ResetHandler` (`func(w http.ResponseWriter, r *http.Request) {}`),
which writes nothing and therefore produces a 200 response with empty body;
`custom f` is any handler installed by `SwitchHandler`. -/
inductive Handler where
  | dflt : Handler
  | custom (f : Request → HandlerEffect) : Handler

/-- Run a handler on a request: the default handler performs no writes
(Go then serves status 200 with an empty body). -/
def runHandler : Handler → Request → HandlerEffect
  | Handler.dflt, _ => ⟨[], 200, ""⟩
  | Handler.custom f, r => f r

/-- A response header map (Go's `http.Header`, restricted to the single
values that `Set`/`Get` read and write): key ↦ value, `""` when absent. -/
def HeaderMap : Type := String → String

/-- The empty header map of a fresh `http.ResponseWriter`. -/
def emptyHeaders : HeaderMap := fun _ => ""

/-- `http.Header.Set`: overwrite the value stored under `k`. -/
def setHeader (hs : HeaderMap) (k v : String) : HeaderMap :=
  fun k' => if k' = k then v else hs k'

/-- `http.Header.Get`: the value for the key, `""` when absent. -/
def getHeader (hs : HeaderMap) (k : String) : String :=
  hs k

/-- Apply a handler's header writes, in order, via `setHeader`. -/
def applySets (hs : HeaderMap) (sets : List (String × String)) : HeaderMap :=
  sets.foldl (fun acc p => setHeader acc p.1 p.2) hs

/-- `CDNBackendServer` (`helpers.go`). The `server` field models the
`*httptest.Server` pointer: `some ()` when running, `none` when nil. `Port`
and TLS material are carried along but binding a TCP port is environmental
and not modelled. -/
structure Backend where
  name : String
  port : Nat
  handler : Handler
  server : Option Unit

/-- `IsStarted`: `return (s.server != nil)`. -/
def isStarted (b : Backend) : Bool :=
  b.server.isSome

/-- `ResetHandler`: install the empty default handler. -/
def resetHandler (b : Backend) : Backend :=
  { b with handler := Handler.dflt }

/-- `Start`: calls `ResetHandler`, binds the port and sets `s.server` to the
freshly started `httptest` server. Port binding (and the `log.Fatal` on a
failed bind, and kernel assignment of port 0) is environmental; the state
change on the struct is: handler reset to default, server non-nil. -/
def start (b : Backend) : Backend :=
  { resetHandler b with server := some () }

/-- `Stop`: `s.server.Close(); s.server = nil`. The method dereferences
`s.server` unconditionally, so when the pointer is nil (backend not started)
the call panics with a nil-pointer dereference, modelled as `none`. -/
def stop (b : Backend) : Option Backend :=
  match b.server with
  | some _ => some { b with server := none }
  | none => none

/-- The complete observable response produced by one call to
`CDNBackendServer.ServeHTTP`: final headers, status, body, and whether the
installed handler was invoked. -/
structure ServeResult where
  headers : HeaderMap
  status : Nat
  body : String
  handlerInvoked : Bool

/-- `CDNBackendServer.ServeHTTP` (`helpers.go` lines 35–45): set
`Backend-Name` to the server's name first; if the request method is `HEAD`
(any path — the current code has no path check), set `PING: PONG` and return
without calling the handler; otherwise delegate to the installed handler. -/
def serveHTTP (b : Backend) (r : Request) : ServeResult :=
  let hs := setHeader emptyHeaders "Backend-Name" b.name
  if r.method = "HEAD" then
    { headers := setHeader hs "PING" "PONG"
      status := 200
      body := ""
      handlerInvoked := false }
  else
    let eff := runHandler b.handler r
    { headers := applySets hs eff.headerSets
      status := eff.status
      body := eff.body
      handlerInvoked := true }

/-! ### Time constants (`main_test.go`, `helpers.go`), in nanoseconds -/

/-- `time.Second` in nanoseconds. -/
def second : Nat := 1000000000

/-- `requestSlowThreshold = time.Second` (`main_test.go`). -/
def requestSlowThreshold : Nat := second

/-- `maxRetries = 20` (`waitForBackend`). -/
def maxRetries : Nat := 20

/-- `waitForCdnProbeToPropagate = 5 * time.Second` (`waitForBackend`). -/
def waitForCdnProbeToPropagate : Nat := 5 * second

/-- `timeBetweenAttempts = 2 * time.Second` (`waitForBackend`). -/
def timeBetweenAttempts : Nat := 2 * second

/-! ### `RoundTripCheckError` -/

/-- The effect of one helper call on the calling `testing.T`: whether the
test was marked failed (`t.Error` or `t.Fatal`), and whether the test's
execution was aborted (`t.Fatal`). -/
structure TestEffect where
  failed : Bool
  aborted : Bool

/-- `RoundTripCheckError` (`helpers.go` lines 200–214). The network is
abstracted by the round-trip outcome `result` (a response `ρ` or a transport
error message) and the measured `duration` in nanoseconds. A duration above
`requestSlowThreshold` triggers `t.Error` (mark failed, continue); a
transport error triggers `t.Fatal` (mark failed, abort) and no response is
returned. -/
def roundTripCheckError {ρ : Type} (duration : Nat) (result : Except String ρ) :
    TestEffect × Option ρ :=
  let slow : Bool := decide (duration > requestSlowThreshold)
  match result with
  | Except.error _ => (⟨true, true⟩, none)
  | Except.ok resp => (⟨slow, false⟩, some resp)

/-! ### `waitForBackend` -/

/-- The edge as seen by `waitForBackend`: attempt number ↦ either a
transport error (from `client.RoundTrip`) or the `Backend-Name` header value
of the response. Each attempt uses a fresh `NewUniqueEdgeURL`, so attempts
are distinguished only by their index. -/
def EdgeOracle : Type := Nat → Except String String

/-- Observable trace of one `waitForBackend` call: how many requests were
issued and the sleeps performed, in order (in nanoseconds). -/
structure WaitTrace where
  attempts : Nat
  sleeps : List Nat
deriving DecidableEq, Repr

/-- The exhaustion error message: `fmt.Errorf("%s still not available after
%d attempts", expectedBackendName, maxRetries)`. -/
def waitErrMsg (expectedBackendName : String) : String :=
  expectedBackendName ++ " still not available after " ++ toString maxRetries ++ " attempts"

/-- The loop body of `waitForBackend`, running attempts `tryIdx`,
`tryIdx + 1`, … while `remaining` attempts are left (the Go loop is
`for try := 0; try <= maxRetries; try++`). A transport error returns
immediately; a response whose `Backend-Name` equals the expected name sleeps
`waitForCdnProbeToPropagate` iff `tryIdx ≠ 0` and returns success; otherwise
the loop sleeps `timeBetweenAttempts` and retries. -/
def waitGo (edge : EdgeOracle) (expected : String) :
    Nat → Nat → WaitTrace × Except String Unit
  | _, 0 => (⟨0, []⟩, Except.error (waitErrMsg expected))
  | tryIdx, remaining + 1 =>
    match edge tryIdx with
    | Except.error e => (⟨1, []⟩, Except.error e)
    | Except.ok name =>
      if name = expected then
        (⟨1, if tryIdx ≠ 0 then [waitForCdnProbeToPropagate] else []⟩, Except.ok ())
      else
        let rest := waitGo edge expected (tryIdx + 1) remaining
        (⟨rest.1.attempts + 1, timeBetweenAttempts :: rest.1.sleeps⟩, rest.2)

/-- `waitForBackend` (`helpers.go` lines 259–295): up to `maxRetries + 1`
attempts, starting at `try = 0`. -/
def waitForBackend (edge : EdgeOracle) (expected : String) :
    WaitTrace × Except String Unit :=
  waitGo edge expected 0 (maxRetries + 1)

/-! ### `ResetBackends` -/

/-- Outcome of one `waitForBackend` call as consumed by `ResetBackends`:
`ok`, or an error (transport error or exhaustion). -/
def WaitFn : Type := String → Except String Unit

/-- `stopBackends` (`helpers.go` lines 247–253): stop every started backend
in the slice (the `IsStarted` guard means `Stop` is never called on a nil
server here). -/
def stopBackends (bs : List Backend) : List Backend :=
  bs.map (fun b => if isStarted b then (stop b).getD b else b)

/-- Ghost events recorded while running `ResetBackends`, in program order.
`startB` additionally records the whole fleet state at the moment `Start`
is called (after any `stopBackends` of the prefix). -/
inductive REvent where
  | resetH (i : Nat) (b : Backend) : REvent
  | stopPre (i : Nat) : REvent
  | startB (i : Nat) (pre : List Backend) : REvent
  | waitB (name : String) : REvent

/-- The backend index processed by an event, when the event is the
processing of a fleet element. -/
def procIdx : REvent → Option Nat
  | REvent.resetH i _ => some i
  | REvent.startB i _ => some i
  | _ => none

/-- The loop of `ResetBackends` (`helpers.go` lines 220–244), counting
`i` down: the call with counter `i + 1` processes fleet index `i` (Go's
`backend := backends[i-1]`). `flag` is `remainingBackendsStopped`. A started
backend gets `ResetHandler`; a stopped one first (once per run) triggers
`stopBackends` on the strict prefix, then `Start` and `waitForBackend`,
whose error is `log.Fatal` (`none`). Returns the final fleet and the ghost
event trace. -/
def resetLoop (wait : WaitFn) :
    Nat → Bool → List Backend → Option (List Backend × List REvent)
  | 0, _, fleet => some (fleet, [])
  | i + 1, flag, fleet =>
    match fleet[i]? with
    | none => some (fleet, [])
    | some b =>
      if isStarted b then
        match resetLoop wait i flag (fleet.set i (resetHandler b)) with
        | none => none
        | some (fleet', tr) => some (fleet', REvent.resetH i b :: tr)
      else
        let fleet1 := if flag then fleet else stopBackends (fleet.take i) ++ fleet.drop i
        let preEvts := if flag then [] else [REvent.stopPre i]
        let fleet2 := fleet1.set i (start b)
        match wait b.name with
        | Except.error _ => none
        | Except.ok _ =>
          match resetLoop wait i true fleet2 with
          | none => none
          | some (fleet', tr) =>
            some (fleet', preEvts ++ REvent.startB i fleet1 :: REvent.waitB b.name :: tr)

/-- `ResetBackends` with its ghost trace: process the fleet from the last
element (lowest priority) to the first (origin). -/
def resetBackends (wait : WaitFn) (fleet : List Backend) :
    Option (List Backend × List REvent) :=
  resetLoop wait fleet.length false fleet

/-! ### `testRequestsCachedDuration` / `testRequestsCachedIndefinite` -/

/-- The two fixed origin bodies of `testRequestsCachedDuration`:
`responseCached = "first response"`, `responseNotCached = "subsequent
response"`. -/
def responseCached : String := "first response"

/-- See `responseCached`. -/
def responseNotCached : String := "subsequent response"

/-- The origin handler installed by `testRequestsCachedDuration`: the body
written for the `count`-th request received by origin (0-based). Header
writes by the optional `respCB` happen before this body write and do not
affect it. -/
def cachedDurationBody (count : Nat) : String :=
  if count = 0 then responseCached else responseNotCached

/-- Observable outcome of one `testRequestsCachedDuration` call: the
requests issued (request number 1–3, paired with the sleep in nanoseconds
performed just before that request, if any), the request numbers whose body
comparison raised `t.Errorf`, and the final origin request-count check
(`some (expected, got)` when it raised `t.Errorf`). -/
structure CacheTestOutcome where
  requests : List (Nat × Option Nat)
  bodyErrors : List Nat
  countError : Option (Nat × Nat)

/-- `testRequestsCachedDuration` (`helpers.go` lines 321–392). The edge is
abstracted by `received` (body of the response the edge returned for request
number 1–3) and `originCount` (how many of the three requests reached the
origin handler; its value at the final check). `respTTL` is in nanoseconds.
The loop runs `requestCount = 1, 2, 3`; when `respTTL > 0` it sleeps
`respTTL + respTTL / 4` before request 3; the expected body is
`responseNotCached` for request 3 when `respTTL > 0`, else `responseCached`;
a mismatch is a non-fatal `t.Errorf`. Finally origin's request count is
checked against 2 (`respTTL > 0`) or 1 (`respTTL = 0`). -/
def testRequestsCachedDuration (respTTL : Nat) (received : Nat → String)
    (originCount : Nat) : CacheTestOutcome :=
  let testCacheExpiry : Bool := decide (respTTL > 0)
  let respTTLWithBuffer : Nat := respTTL + respTTL / 4
  let requestsExpectedCount : Nat := if testCacheExpiry then 2 else 1
  let step := fun (requestCount : Nat) =>
    let sleep : Option Nat :=
      if testCacheExpiry ∧ requestCount = 3 then some respTTLWithBuffer else none
    let expectedBody : String :=
      if testCacheExpiry ∧ requestCount > 2 then responseNotCached else responseCached
    ((requestCount, sleep), if received requestCount = expectedBody then none
      else some requestCount)
  let steps := [step 1, step 2, step 3]
  { requests := steps.map Prod.fst
    bodyErrors := steps.filterMap Prod.snd
    countError := if originCount ≠ requestsExpectedCount then
        some (requestsExpectedCount, originCount) else none }

/-- `testRequestsCachedIndefinite` (`helpers.go` lines 302–308): the wrapper
with `respTTL = 0`. -/
def testRequestsCachedIndefinite (received : Nat → String) (originCount : Nat) :
    CacheTestOutcome :=
  testRequestsCachedDuration 0 received originCount

/-! ### Header lemmas -/

theorem getHeader_setHeader_self (hs : HeaderMap) (k v : String) :
    getHeader (setHeader hs k v) k = v := by
  simp [getHeader, setHeader]

theorem getHeader_setHeader_ne (hs : HeaderMap) {k k' : String} (v : String)
    (h : k' ≠ k) : getHeader (setHeader hs k v) k' = getHeader hs k' := by
  simp [getHeader, setHeader, h]

theorem getHeader_applySets_of_forall_ne (sets : List (String × String)) :
    ∀ (hs : HeaderMap) (k : String), (∀ p ∈ sets, p.1 ≠ k) →
    getHeader (applySets hs sets) k = getHeader hs k := by
  induction sets with
  | nil => intro hs k _; rfl
  | cons p rest ih =>
    intro hs k hne
    have hp : p.1 ≠ k := hne p (List.mem_cons_self p rest)
    have hrest : ∀ q ∈ rest, q.1 ≠ k := fun q hq => hne q (List.mem_cons_of_mem p hq)
    calc getHeader (applySets (setHeader hs p.1 p.2) rest) k
        = getHeader (setHeader hs p.1 p.2) k := ih (setHeader hs p.1 p.2) k hrest
      _ = getHeader hs k := getHeader_setHeader_ne hs p.2 (Ne.symm hp)

/-! ### Concrete backends used as test inputs -/

/-- A running backend named `origin` with the default handler. -/
def startedB : Backend :=
  { name := "origin", port := 8080, handler := Handler.dflt, server := some () }

/-- A backend named `backup1` that was never started (nil server). -/
def stoppedB : Backend :=
  { name := "backup1", port := 8081, handler := Handler.dflt, server := none }

/-- A running backend whose installed handler overwrites the `Backend-Name`
header, as any handler passed to `SwitchHandler` may. -/
def spoofBackend : Backend :=
  { name := "origin", port := 8080
    handler := Handler.custom (fun _ => ⟨[("Backend-Name", "spoofed")], 200, "body"⟩)
    server := some () }

/-- A running backend whose installed handler is observably different from
the probe response (status 418, body `handled`). -/
def headPathBackend : Backend :=
  { name := "origin", port := 8080
    handler := Handler.custom (fun _ => ⟨[], 418, "handled"⟩)
    server := some () }

/-- A running backend whose installed handler sets only a `Cache-Control`
header, as the repository's test handlers do. -/
def ccBackend : Backend :=
  { name := "origin", port := 8080
    handler := Handler.custom (fun _ => ⟨[("Cache-Control", "no-store")], 200, "x"⟩)
    server := some () }

/-! ### C2 -/

/-- C2, counterexample: an installed custom handler may overwrite the
`Backend-Name` header that `ServeHTTP` stamped first, so the response of
`serveHTTP` does not carry the server's own name for every custom handler:
with handler `Set("Backend-Name", "spoofed")` the response carries
`Backend-Name: spoofed` although the server's name is `origin`. -/
theorem serveHTTP_backendName_spoofable :
    getHeader (serveHTTP spoofBackend ⟨"GET", "/"⟩).headers "Backend-Name" = "spoofed"
    ∧ spoofBackend.name = "origin"
    ∧ ("spoofed" : String) ≠ "origin" := by
  refine ⟨by decide, rfl, by decide⟩

/-- C2, amended: `ServeHTTP` stamps `Backend-Name` with the server's `Name`
before the probe check and before the installed handler runs, so the
response carries `Backend-Name = Name` for every probe (`HEAD`) response and
for every request whose installed handler does not itself write a
`Backend-Name` header. -/
theorem serveHTTP_backendName_stamped :
    ∀ (b : Backend) (r : Request),
      (r.method = "HEAD" → getHeader (serveHTTP b r).headers "Backend-Name" = b.name)
      ∧ ((∀ p ∈ (runHandler b.handler r).headerSets, p.1 ≠ "Backend-Name") →
          getHeader (serveHTTP b r).headers "Backend-Name" = b.name) := by
  intro b r
  constructor
  · intro h
    simp only [serveHTTP, if_pos h]
    rw [getHeader_setHeader_ne _ _ (by decide), getHeader_setHeader_self]
  · intro hne
    by_cases hm : r.method = "HEAD"
    · simp only [serveHTTP, if_pos hm]
      rw [getHeader_setHeader_ne _ _ (by decide), getHeader_setHeader_self]
    · simp only [serveHTTP, if_neg hm]
      rw [getHeader_applySets_of_forall_ne _ _ _ hne, getHeader_setHeader_self]

/-- Witness for `serveHTTP_backendName_stamped` at a concrete backend and
request. -/
theorem serveHTTP_backendName_stamped_witness :
    getHeader (serveHTTP ccBackend ⟨"GET", "/"⟩).headers "Backend-Name" = "origin"
    ∧ getHeader (serveHTTP ccBackend ⟨"HEAD", "/"⟩).headers "Backend-Name" = "origin" :=
  ⟨(serveHTTP_backendName_stamped ccBackend ⟨"GET", "/"⟩).2 (by decide),
   (serveHTTP_backendName_stamped ccBackend ⟨"HEAD", "/"⟩).1 rfl⟩

/-! ### C3 -/

/-- C3, counterexample: a `HEAD` request for a path other than `/` is *not*
delegated to the installed handler — the current `ServeHTTP` has no path
check and answers every `HEAD` request directly with 200 and `PING: PONG`
(the installed handler here would have produced status 418 and body
`handled`). -/
theorem serveHTTP_head_nonroot_not_delegated :
    (serveHTTP headPathBackend ⟨"HEAD", "/foo"⟩).handlerInvoked = false
    ∧ (serveHTTP headPathBackend ⟨"HEAD", "/foo"⟩).status = 200
    ∧ getHeader (serveHTTP headPathBackend ⟨"HEAD", "/foo"⟩).headers "PING" = "PONG"
    ∧ (serveHTTP headPathBackend ⟨"HEAD", "/foo"⟩).body = "" := by
  refine ⟨rfl, rfl, by decide, rfl⟩

/-- C3, amended: `ServeHTTP` answers every `HEAD` request — for any path —
directly with status 200 and `PING: PONG` without invoking the installed
handler, and delegates every non-`HEAD` request to the installed handler. -/
theorem serveHTTP_probe_every_head :
    ∀ (b : Backend) (r : Request),
      (serveHTTP b r).handlerInvoked = !(r.method == "HEAD")
      ∧ (serveHTTP b { method := "HEAD", path := r.path }).status = 200
      ∧ getHeader (serveHTTP b { method := "HEAD", path := r.path }).headers "PING" = "PONG"
      ∧ (serveHTTP b { method := "HEAD", path := r.path }).handlerInvoked = false := by
  intro b r
  refine ⟨?_, by simp [serveHTTP], ?_, by simp [serveHTTP]⟩
  · by_cases hm : r.method = "HEAD" <;> simp [serveHTTP, hm]
  · simp only [serveHTTP, if_pos rfl]
    exact getHeader_setHeader_self _ _ _

/-! ### C10 -/

/-- C10: `Stop` dereferences the `server` pointer unconditionally, so on a
backend that is not started (`IsStarted() = false`, nil server) it panics
(modelled as `none`); on a started backend it succeeds and leaves the
backend not started. -/
theorem stop_requires_started :
    ∀ b : Backend,
      (isStarted b = false → stop b = none)
      ∧ (isStarted b = true → ∃ b', stop b = some b' ∧ isStarted b' = false) := by
  intro b
  cases hb : b.server with
  | none => exact ⟨fun _ => by simp [stop, hb], fun h => by simp [isStarted, hb] at h⟩
  | some u =>
    exact ⟨fun h => by simp [isStarted, hb] at h,
      fun _ => ⟨{ b with server := none }, by simp [stop, hb], rfl⟩⟩

/-- Witness for `stop_requires_started` at concrete backends. -/
theorem stop_requires_started_witness :
    stop stoppedB = none ∧ ∃ b', stop startedB = some b' ∧ isStarted b' = false :=
  ⟨(stop_requires_started stoppedB).1 rfl, (stop_requires_started startedB).2 rfl⟩

/-! ### C4 -/

/-- C4, counterexample: a round trip that succeeds at the transport level
but takes longer than `requestSlowThreshold` calls `t.Error`, which *marks
the calling test failed* (without aborting it) — so a slow response does by
itself cause the calling test to fail. -/
theorem roundTripCheckError_slow_fails_test :
    (roundTripCheckError (2 * second) (Except.ok "resp")).1.failed = true
    ∧ (roundTripCheckError (2 * second) (Except.ok "resp")).1.aborted = false := by
  exact ⟨by decide, rfl⟩

/-- C4, amended: `RoundTripCheckError` reports a response slower than the
fixed threshold via `t.Error` — marking the calling test failed exactly when
the duration exceeds `requestSlowThreshold`, but never aborting it and still
returning the response; only a transport-level error aborts the calling test
(`t.Fatal`), returning no response. -/
theorem roundTripCheckError_spec :
    ∀ (ρ : Type) (d : Nat) (res : Except String ρ),
      (∀ r : ρ, res = Except.ok r →
        (roundTripCheckError d res).1.aborted = false
        ∧ (roundTripCheckError d res).2 = some r
        ∧ ((roundTripCheckError d res).1.failed = true ↔ d > requestSlowThreshold))
      ∧ (∀ e : String, res = Except.error e →
        (roundTripCheckError d res).1.failed = true
        ∧ (roundTripCheckError d res).1.aborted = true
        ∧ (roundTripCheckError d res).2 = none) := by
  intro ρ d res
  constructor
  · intro r hr
    subst hr
    simp [roundTripCheckError]
  · intro e he
    subst he
    simp [roundTripCheckError]

/-- Witness for `roundTripCheckError_spec` at concrete inputs. -/
theorem roundTripCheckError_spec_witness :
    (roundTripCheckError (2 * second) (Except.ok "resp")).1.aborted = false
    ∧ (roundTripCheckError 0 (Except.error "EOF" : Except String String)).2 = none :=
  ⟨((roundTripCheckError_spec String (2 * second) (Except.ok "resp")).1 "resp" rfl).1,
   ((roundTripCheckError_spec String 0 (Except.error "EOF")).2 "EOF" rfl).2.2⟩

/-! ### `waitForBackend` lemmas -/

theorem waitGo_attempts_le (edge : EdgeOracle) (expected : String) :
    ∀ (remaining tryIdx : Nat),
    (waitGo edge expected tryIdx remaining).1.attempts ≤ remaining := by
  intro remaining
  induction remaining with
  | zero => intro tryIdx; simp [waitGo]
  | succ r ih =>
    intro tryIdx
    simp only [waitGo]
    cases edge tryIdx with
    | error e => simp
    | ok name =>
      by_cases hn : name = expected
      · simp [hn]
      · simp only [if_neg hn]
        exact Nat.succ_le_succ (ih (tryIdx + 1))

theorem waitGo_success (edge : EdgeOracle) (expected : String) :
    ∀ (k tryIdx remaining : Nat), k < remaining →
    (∀ j, j < k → ∃ n, edge (tryIdx + j) = Except.ok n ∧ n ≠ expected) →
    edge (tryIdx + k) = Except.ok expected →
    waitGo edge expected tryIdx remaining =
      (⟨k + 1, List.replicate k timeBetweenAttempts ++
        (if tryIdx + k ≠ 0 then [waitForCdnProbeToPropagate] else [])⟩, Except.ok ()) := by
  intro k
  induction k with
  | zero =>
    intro tryIdx remaining hlt _ hmatch
    match remaining, hlt with
    | r + 1, _ =>
      rw [Nat.add_zero] at hmatch
      simp [waitGo, hmatch]
  | succ k ih =>
    intro tryIdx remaining hlt hpre hmatch
    match remaining, hlt with
    | r + 1, hlt =>
      obtain ⟨n, hn, hne⟩ := hpre 0 (Nat.succ_pos k)
      rw [Nat.add_zero] at hn
      have hrec := ih (tryIdx + 1) r (Nat.lt_of_succ_lt_succ hlt)
        (fun j hj => by
          have := hpre (j + 1) (Nat.succ_lt_succ hj)
          rwa [show tryIdx + (j + 1) = tryIdx + 1 + j by omega] at this)
        (by rwa [show tryIdx + 1 + k = tryIdx + (k + 1) by omega])
      simp only [waitGo, hn, if_neg hne, hrec]
      have h1 : tryIdx + 1 + k ≠ 0 := by omega
      have h2 : tryIdx + (k + 1) ≠ 0 := by omega
      simp [h1, h2, List.replicate_succ]

theorem waitGo_error (edge : EdgeOracle) (expected : String) :
    ∀ (k tryIdx remaining : Nat) (m : String), k < remaining →
    (∀ j, j < k → ∃ n, edge (tryIdx + j) = Except.ok n ∧ n ≠ expected) →
    edge (tryIdx + k) = Except.error m →
    waitGo edge expected tryIdx remaining =
      (⟨k + 1, List.replicate k timeBetweenAttempts⟩, Except.error m) := by
  intro k
  induction k with
  | zero =>
    intro tryIdx remaining m hlt _ hmatch
    match remaining, hlt with
    | r + 1, _ =>
      rw [Nat.add_zero] at hmatch
      simp [waitGo, hmatch]
  | succ k ih =>
    intro tryIdx remaining m hlt hpre hmatch
    match remaining, hlt with
    | r + 1, hlt =>
      obtain ⟨n, hn, hne⟩ := hpre 0 (Nat.succ_pos k)
      rw [Nat.add_zero] at hn
      have hrec := ih (tryIdx + 1) r m (Nat.lt_of_succ_lt_succ hlt)
        (fun j hj => by
          have := hpre (j + 1) (Nat.succ_lt_succ hj)
          rwa [show tryIdx + (j + 1) = tryIdx + 1 + j by omega] at this)
        (by rwa [show tryIdx + 1 + k = tryIdx + (k + 1) by omega])
      simp [waitGo, hn, if_neg hne, hrec, List.replicate_succ]

theorem waitGo_exhaust (edge : EdgeOracle) (expected : String) :
    ∀ (remaining tryIdx : Nat),
    (∀ j, j < remaining → ∃ n, edge (tryIdx + j) = Except.ok n ∧ n ≠ expected) →
    waitGo edge expected tryIdx remaining =
      (⟨remaining, List.replicate remaining timeBetweenAttempts⟩,
        Except.error (waitErrMsg expected)) := by
  intro remaining
  induction remaining with
  | zero => intro tryIdx _; simp [waitGo]
  | succ r ih =>
    intro tryIdx hpre
    obtain ⟨n, hn, hne⟩ := hpre 0 (Nat.succ_pos r)
    rw [Nat.add_zero] at hn
    have hrec := ih (tryIdx + 1)
      (fun j hj => by
        have := hpre (j + 1) (Nat.succ_lt_succ hj)
        rwa [show tryIdx + (j + 1) = tryIdx + 1 + j by omega] at this)
    simp [waitGo, hn, if_neg hne, hrec, List.replicate_succ]

/-! ### `ResetBackends` lemmas -/

theorem set_of_getElem? {α : Type} :
    ∀ (l : List α) (i : Nat) (a : α), l[i]? = some a → l.set i a = l := by
  intro l
  induction l with
  | nil => intro i a h; simp at h
  | cons x xs ih =>
    intro i a h
    cases i with
    | zero => simp at h; simp [h]
    | succ n => simp at h ⊢; exact ih n a h

theorem stopFn_not_started (b : Backend) :
    isStarted (if isStarted b then (stop b).getD b else b) = false := by
  cases hb : b.server with
  | none => simp [isStarted, hb]
  | some u => simp [isStarted, stop, hb]

theorem stopBackends_length (bs : List Backend) :
    (stopBackends bs).length = bs.length :=
  List.length_map bs _

theorem stopBackends_not_started (bs : List Backend) (j : Nat) (c : Backend)
    (h : (stopBackends bs)[j]? = some c) : isStarted c = false := by
  rw [stopBackends, List.getElem?_map] at h
  cases hb : bs[j]? with
  | none => rw [hb] at h; simp at h
  | some b =>
    rw [hb] at h
    simp only [Option.map_some'] at h
    rw [← Option.some.inj h]
    exact stopFn_not_started b

/-- Master invariant of the `ResetBackends` loop. Running the loop from
counter `i` (processing indices `i - 1` down to `0`) on a fleet of length at
least `i`, under the invariant that a raised `remainingBackendsStopped` flag
means every unprocessed index is stopped, yields: unchanged length and
unchanged suffix; every processed index started with the default handler;
processing order `i - 1, …, 0`; every `resetH` event belongs to a backend
that was started when encountered and only had its handler reset; and every
`startB` event belongs to a backend that was stopped when encountered, whose
higher-priority prefix was entirely stopped at the moment `Start` ran, whose
`waitForBackend` succeeded, and which ends up started with default handler. -/
theorem resetLoop_master (wait : WaitFn) :
    ∀ (i : Nat) (flag : Bool) (fleet fleet' : List Backend) (tr : List REvent),
    resetLoop wait i flag fleet = some (fleet', tr) →
    i ≤ fleet.length →
    (flag = true → ∀ j c, j < i → fleet[j]? = some c → isStarted c = false) →
    fleet'.length = fleet.length
    ∧ (∀ j, i ≤ j → fleet'[j]? = fleet[j]?)
    ∧ (∀ j b', j < i → fleet'[j]? = some b' → isStarted b' = true ∧ b'.handler = Handler.dflt)
    ∧ tr.filterMap procIdx = (List.range i).reverse
    ∧ (∀ i' b, REvent.resetH i' b ∈ tr → isStarted b = true ∧ fleet'[i']? = some (resetHandler b))
    ∧ (∀ i' pre, REvent.startB i' pre ∈ tr →
        (∃ b, pre[i']? = some b ∧ isStarted b = false ∧ wait b.name = Except.ok ()
          ∧ REvent.waitB b.name ∈ tr ∧ fleet'[i']? = some (start b))
        ∧ (∀ j c, j < i' → pre[j]? = some c → isStarted c = false)) := by
  intro i
  induction i with
  | zero =>
    intro flag fleet fleet' tr h _ _
    simp only [resetLoop] at h
    injection h with h'
    injection h' with ha hb
    subst ha; subst hb
    refine ⟨rfl, fun j _ => rfl, fun j b' hj _ => absurd hj (Nat.not_lt_zero j), rfl, ?_, ?_⟩
    · intro i' b hb; simp at hb
    · intro i' pre hp; simp at hp
  | succ i ih =>
    intro flag fleet fleet' tr h hlen hinv
    have hi : i < fleet.length := hlen
    obtain ⟨b, hfi⟩ : ∃ b, fleet[i]? = some b := ⟨fleet[i], List.getElem?_eq_getElem hi⟩
    simp only [resetLoop, hfi] at h
    cases hst : isStarted b with
    | true =>
      rw [if_pos hst] at h
      cases hrec : resetLoop wait i flag (fleet.set i (resetHandler b)) with
      | none => rw [hrec] at h; exact Option.noConfusion h
      | some out' =>
        obtain ⟨fl, tl⟩ := out'
        rw [hrec] at h
        injection h with h'
        injection h' with ha hb
        subst ha; subst hb
        have hlen' : i ≤ (fleet.set i (resetHandler b)).length := by
          rw [List.length_set]; omega
        have hinv' : flag = true → ∀ j c, j < i →
            (fleet.set i (resetHandler b))[j]? = some c → isStarted c = false := by
          intro hf j c hj hjc
          rw [List.getElem?_set_ne (by omega : i ≠ j)] at hjc
          exact hinv hf j c (by omega) hjc
        obtain ⟨ihlen, ihframe, ihproc, ihtrace, ihreset, ihstart⟩ :=
          ih flag _ fl tl hrec hlen' hinv'
        have hfin_i : fl[i]? = some (resetHandler b) := by
          rw [ihframe i (Nat.le_refl i)]
          exact List.getElem?_set_eq_of_lt (resetHandler b) hi
        refine ⟨?_, ?_, ?_, ?_, ?_, ?_⟩
        · rw [ihlen, List.length_set]
        · intro j hj
          rw [ihframe j (by omega), List.getElem?_set_ne (by omega : i ≠ j)]
        · intro j b' hj hjb
          rcases Nat.lt_or_ge j i with hji | hji
          · exact ihproc j b' hji hjb
          · have hje : j = i := by omega
            subst hje
            rw [hfin_i] at hjb
            obtain rfl := Option.some.inj hjb
            refine ⟨?_, rfl⟩
            simpa [resetHandler, isStarted] using hst
        · simp only [List.filterMap_cons, procIdx]
          rw [ihtrace, List.range_succ]
          simp
        · intro i' c hc
          rcases List.mem_cons.mp hc with heq | hmem
          · injection heq with h1 h2
            subst h1; subst h2
            exact ⟨hst, hfin_i⟩
          · exact ihreset i' c hmem
        · intro i' pre hc
          rcases List.mem_cons.mp hc with heq | hmem
          · exact absurd heq (by simp)
          · obtain ⟨⟨b0, hb0, hb0s, hb0w, hb0mem, hb0fin⟩, hpre⟩ := ihstart i' pre hmem
            exact ⟨⟨b0, hb0, hb0s, hb0w, List.mem_cons_of_mem _ hb0mem, hb0fin⟩, hpre⟩
    | false =>
      rw [if_neg (by simp [hst])] at h
      set fleet1 := if flag = true then fleet
        else stopBackends (fleet.take i) ++ fleet.drop i with hfleet1
      set pevts := if flag = true then ([] : List REvent)
        else [REvent.stopPre i] with hpevts
      have hf1len : fleet1.length = fleet.length := by
        rw [hfleet1]
        by_cases hfl : flag = true
        · simp [hfl]
        · simp only [if_neg hfl]
          rw [List.length_append, stopBackends_length, List.length_take, List.length_drop]
          omega
      have hf1ge : ∀ j, i ≤ j → fleet1[j]? = fleet[j]? := by
        intro j hj
        rw [hfleet1]
        by_cases hfl : flag = true
        · simp [hfl]
        · simp only [if_neg hfl]
          have hplen : (stopBackends (fleet.take i)).length = i := by
            rw [stopBackends_length, List.length_take]; omega
          rw [List.getElem?_append_right (by rw [hplen]; omega), hplen, List.getElem?_drop]
          congr 1
          omega
      have hf1lt : ∀ j c, j < i → fleet1[j]? = some c → isStarted c = false := by
        intro j c hj hjc
        rw [hfleet1] at hjc
        by_cases hfl : flag = true
        · rw [if_pos hfl] at hjc
          exact hinv hfl j c (by omega) hjc
        · rw [if_neg hfl] at hjc
          have hplen : (stopBackends (fleet.take i)).length = i := by
            rw [stopBackends_length, List.length_take]; omega
          rw [List.getElem?_append, if_pos (by rw [hplen]; omega)] at hjc
          exact stopBackends_not_started _ j c hjc
      have hpe : ∀ e ∈ pevts, e = REvent.stopPre i := by
        rw [hpevts]
        by_cases hfl : flag = true
        · simp [hfl]
        · simp [if_neg hfl]
      have hpids : pevts.filterMap procIdx = [] := by
        rw [hpevts]
        by_cases hfl : flag = true
        · simp [hfl]
        · simp [if_neg hfl, procIdx]
      cases hw : wait b.name with
      | error e => rw [hw] at h; exact Option.noConfusion h
      | ok u =>
        cases u
        rw [hw] at h
        cases hrec : resetLoop wait i true (fleet1.set i (start b)) with
        | none => rw [hrec] at h; exact Option.noConfusion h
        | some out' =>
          obtain ⟨fl, tl⟩ := out'
          rw [hrec] at h
          injection h with h'
          injection h' with ha hb
          subst ha; subst hb
          have hlen' : i ≤ (fleet1.set i (start b)).length := by
            rw [List.length_set, hf1len]; omega
          have hinv' : (true : Bool) = true → ∀ j c, j < i →
              (fleet1.set i (start b))[j]? = some c → isStarted c = false := by
            intro _ j c hj hjc
            rw [List.getElem?_set_ne (by omega : i ≠ j)] at hjc
            exact hf1lt j c hj hjc
          obtain ⟨ihlen, ihframe, ihproc, ihtrace, ihreset, ihstart⟩ :=
            ih true _ fl tl hrec hlen' hinv'
          have hfin_i : fl[i]? = some (start b) := by
            rw [ihframe i (Nat.le_refl i)]
            exact List.getElem?_set_eq_of_lt (start b) (by rw [hf1len]; omega)
          have hf1i : fleet1[i]? = some b := by
            rw [hf1ge i (Nat.le_refl i)]; exact hfi
          have hwmem : REvent.waitB b.name ∈
              pevts ++ REvent.startB i fleet1 :: REvent.waitB b.name :: tl :=
            List.mem_append_right _ (List.mem_cons_of_mem _ (List.mem_cons_self _ _))
          refine ⟨?_, ?_, ?_, ?_, ?_, ?_⟩
          · rw [ihlen, List.length_set, hf1len]
          · intro j hj
            rw [ihframe j (by omega), List.getElem?_set_ne (by omega : i ≠ j)]
            exact hf1ge j (by omega)
          · intro j b' hj hjb
            rcases Nat.lt_or_ge j i with hji | hji
            · exact ihproc j b' hji hjb
            · have hje : j = i := by omega
              subst hje
              rw [hfin_i] at hjb
              obtain rfl := Option.some.inj hjb
              exact ⟨rfl, rfl⟩
          · rw [List.filterMap_append, hpids]
            simp only [List.filterMap_cons, procIdx]
            rw [ihtrace, List.range_succ]
            simp
          · intro i' c hc
            rcases List.mem_append.mp hc with hmem | hmem
            · exact absurd (hpe _ hmem) (by simp)
            · rcases List.mem_cons.mp hmem with heq2 | hmem2
              · exact absurd heq2 (by simp)
              · rcases List.mem_cons.mp hmem2 with heq3 | hmem3
                · exact absurd heq3 (by simp)
                · exact ihreset i' c hmem3
          · intro i' pre hc
            rcases List.mem_append.mp hc with hmem | hmem
            · exact absurd (hpe _ hmem) (by simp)
            · rcases List.mem_cons.mp hmem with heq2 | hmem2
              · injection heq2 with h1 h2
                subst h1; subst h2
                exact ⟨⟨b, hf1i, hst, hw, hwmem, hfin_i⟩, hf1lt⟩
              · rcases List.mem_cons.mp hmem2 with heq3 | hmem3
                · exact absurd heq3 (by simp)
                · obtain ⟨⟨b0, hb0, hb0s, hb0w, hb0mem, hb0fin⟩, hpre⟩ :=
                    ihstart i' pre hmem3
                  refine ⟨⟨b0, hb0, hb0s, hb0w, ?_, hb0fin⟩, hpre⟩
                  exact List.mem_append_right _
                    (List.mem_cons_of_mem _ (List.mem_cons_of_mem _ hb0mem))

/-- Running the `ResetBackends` loop on a fleet in which every backend is
started with the default handler performs only handler resets and leaves the
fleet unchanged. -/
theorem resetLoop_idem (wait : WaitFn) :
    ∀ (i : Nat) (flag : Bool) (fleet : List Backend),
    (∀ (j : Nat) (b' : Backend), fleet[j]? = some b' →
      isStarted b' = true ∧ b'.handler = Handler.dflt) →
    ∃ tr', resetLoop wait i flag fleet = some (fleet, tr') := by
  intro i
  induction i with
  | zero => intro flag fleet _; exact ⟨[], rfl⟩
  | succ i ih =>
    intro flag fleet hall
    cases hfi : fleet[i]? with
    | none => exact ⟨[], by simp [resetLoop, hfi]⟩
    | some b =>
      obtain ⟨hst, hdf⟩ := hall i b hfi
      have hrb : resetHandler b = b := by
        cases b with
        | mk n p hd s =>
          have hdf2 : hd = Handler.dflt := hdf
          subst hdf2
          rfl
      have hset : fleet.set i (resetHandler b) = fleet := by
        rw [hrb]; exact set_of_getElem? fleet i b hfi
      obtain ⟨tr', htr⟩ := ih flag fleet hall
      refine ⟨REvent.resetH i b :: tr', ?_⟩
      simp only [resetLoop, hfi]
      rw [if_pos hst, hset, htr]

/-- A convergence-check function that always reports success. -/
def wOk : WaitFn := fun _ => Except.ok ()

/-- C1: when `ResetBackends(backends)` returns without fatal termination,
every backend in the final fleet is started and carries the default no-op
200 handler, and running `ResetBackends` again on that fleet immediately
succeeds and leaves it in exactly the same state (idempotence). -/
theorem resetBackends_started_default_idempotent :
    ∀ (wait : WaitFn) (fleet : List Backend) (out : List Backend × List REvent),
    resetBackends wait fleet = some out →
    (∀ b ∈ out.1, isStarted b = true ∧ b.handler = Handler.dflt
      ∧ ∀ r, runHandler b.handler r = ⟨[], 200, ""⟩)
    ∧ ∃ tr2, resetBackends wait out.1 = some (out.1, tr2) := by
  intro wait fleet out h
  obtain ⟨fl, tr⟩ := out
  obtain ⟨hlen, _, hproc, _, _, _⟩ :=
    resetLoop_master wait fleet.length false fleet fl tr h (Nat.le_refl _)
      (fun hf => absurd hf (by simp))
  have hall : ∀ (j : Nat) (b' : Backend), fl[j]? = some b' →
      isStarted b' = true ∧ b'.handler = Handler.dflt := by
    intro j b' hjb
    have hjlen : j < fl.length := (List.getElem?_eq_some.mp hjb).1
    exact hproc j b' (by omega) hjb
  constructor
  · intro b hb
    obtain ⟨j, hj⟩ := List.mem_iff_getElem?.mp hb
    obtain ⟨h1, h2⟩ := hall j b hj
    exact ⟨h1, h2, fun r => by rw [h2]; rfl⟩
  · exact resetLoop_idem wait fl.length false fl hall

/-- Witness for `resetBackends_started_default_idempotent` on a concrete
one-backend fleet. -/
theorem resetBackends_started_default_idempotent_witness :
    isStarted startedB = true ∧ startedB.handler = Handler.dflt
    ∧ ∃ tr2, resetBackends wOk [startedB] = some ([startedB], tr2) := by
  obtain ⟨hmem, hid⟩ := resetBackends_started_default_idempotent wOk [startedB]
    ([startedB], [REvent.resetH 0 startedB]) rfl
  obtain ⟨h1, h2, _⟩ := hmem startedB (List.mem_cons_self _ _)
  exact ⟨h1, h2, hid⟩

/-- The two-backend fleet `[stopped backup1, started origin]` used as a
concrete `ResetBackends` input (priority order: index 0 first). -/
def fleetW : List Backend := [stoppedB, startedB]

/-- The result of `resetBackends wOk fleetW`: the stopped backend is started
after stopping the (empty) higher-priority prefix, the started backend only
has its handler reset, and the walk processes index 1 before index 0. -/
def outW : List Backend × List REvent :=
  ([start stoppedB, startedB],
   [REvent.resetH 1 startedB, REvent.stopPre 0,
    REvent.startB 0 [stoppedB, startedB], REvent.waitB "backup1"])

/-- C5: `ResetBackends` walks the fleet in reverse priority order (processed
indices are `n-1, …, 0`); every backend found started is only handler-reset
(ending as `resetHandler b`); and whenever a backend is found not started,
at the moment `Start` is called every higher-priority backend (every element
before it in the slice) is stopped, after which the backend is started and
convergence polling for its name runs. -/
theorem resetBackends_reverse_priority_walk :
    ∀ (wait : WaitFn) (fleet : List Backend) (out : List Backend × List REvent),
    resetBackends wait fleet = some out →
    out.2.filterMap procIdx = (List.range fleet.length).reverse
    ∧ (∀ (i : Nat) (b : Backend), REvent.resetH i b ∈ out.2 →
        isStarted b = true ∧ out.1[i]? = some (resetHandler b))
    ∧ (∀ (i : Nat) (pre : List Backend), REvent.startB i pre ∈ out.2 →
        (∃ b, pre[i]? = some b ∧ isStarted b = false
          ∧ REvent.waitB b.name ∈ out.2 ∧ out.1[i]? = some (start b))
        ∧ (∀ (j : Nat) (c : Backend), j < i → pre[j]? = some c → isStarted c = false)) := by
  intro wait fleet out h
  obtain ⟨fl, tr⟩ := out
  obtain ⟨_, _, _, htrace, hreset, hstart⟩ :=
    resetLoop_master wait fleet.length false fleet fl tr h (Nat.le_refl _)
      (fun hf => absurd hf (by simp))
  refine ⟨htrace, hreset, ?_⟩
  intro i pre hp
  obtain ⟨⟨b, h1, h2, _, h4, h5⟩, hpre⟩ := hstart i pre hp
  exact ⟨⟨b, h1, h2, h4, h5⟩, hpre⟩

/-- Witness for `resetBackends_reverse_priority_walk` on the concrete fleet
`fleetW`. -/
theorem resetBackends_reverse_priority_walk_witness :
    outW.2.filterMap procIdx = [1, 0]
    ∧ isStarted startedB = true := by
  have h := resetBackends_reverse_priority_walk wOk fleetW outW rfl
  refine ⟨h.1, ?_⟩
  exact (h.2.1 1 startedB (List.mem_cons_self _ _)).1

/-- C7: a transport-level error during convergence polling makes
`waitForBackend` return that error immediately — exactly `k + 1` requests
are issued when the error happens on attempt `k`, with no further retries —
and `ResetBackends` only ever returns (rather than `log.Fatal`-terminating)
when `waitForBackend` reported success for every backend it started. -/
theorem waitForBackend_error_fatal :
    (∀ (edge : EdgeOracle) (expected : String) (k : Nat) (m : String),
      k ≤ maxRetries →
      (∀ j, j < k → ∃ n, edge j = Except.ok n ∧ n ≠ expected) →
      edge k = Except.error m →
      waitForBackend edge expected =
        (⟨k + 1, List.replicate k timeBetweenAttempts⟩, Except.error m))
    ∧ (∀ (wait : WaitFn) (fleet : List Backend) (out : List Backend × List REvent),
      resetBackends wait fleet = some out →
      ∀ (i : Nat) (pre : List Backend), REvent.startB i pre ∈ out.2 →
      ∃ b, pre[i]? = some b ∧ wait b.name = Except.ok ()) := by
  constructor
  · intro edge expected k m hk hpre herr
    have h := waitGo_error edge expected k 0 (maxRetries + 1) m (by omega)
      (by simpa using hpre) (by simpa using herr)
    simpa [waitForBackend] using h
  · intro wait fleet out h i pre hp
    obtain ⟨fl, tr⟩ := out
    obtain ⟨_, _, _, _, _, hstart⟩ :=
      resetLoop_master wait fleet.length false fleet fl tr h (Nat.le_refl _)
        (fun hf => absurd hf (by simp))
    obtain ⟨⟨b, h1, _, h3, _, _⟩, _⟩ := hstart i pre hp
    exact ⟨b, h1, h3⟩

/-- An edge oracle whose second attempt fails at the transport level. -/
def edgeErrW : EdgeOracle :=
  fun n => if n = 0 then Except.ok "wrong" else Except.error "connection refused"

/-- Witness for `waitForBackend_error_fatal` at concrete inputs. -/
theorem waitForBackend_error_fatal_witness :
    waitForBackend edgeErrW "origin" =
      (⟨2, [timeBetweenAttempts]⟩, Except.error "connection refused")
    ∧ wOk stoppedB.name = Except.ok () := by
  constructor
  · have h := waitForBackend_error_fatal.1 edgeErrW "origin" 1 "connection refused"
      (by decide)
      (fun j hj => by
        have hj0 : j = 0 := by omega
        subst hj0
        exact ⟨"wrong", rfl, by decide⟩)
      rfl
    simpa using h
  · obtain ⟨b, hb, hok⟩ := waitForBackend_error_fatal.2 wOk fleetW outW rfl 0
      [stoppedB, startedB]
      (List.mem_cons_of_mem _ (List.mem_cons_of_mem _ (List.mem_cons_self _ _)))
    have hbe : stoppedB = b := Option.some.inj hb
    rw [← hbe] at hok
    exact hok

/-- C6: `waitForBackend` polls serially; when the first matching
`Backend-Name` arrives on attempt `k` (0-based, at most `maxRetries`), it
has issued exactly `k + 1` requests, slept the fixed `timeBetweenAttempts`
after each of the `k` unsuccessful attempts, sleeps the fixed propagation
window after the match if and only if the match was not on the very first
attempt, and returns success. -/
theorem waitForBackend_convergence_behavior :
    ∀ (edge : EdgeOracle) (expected : String) (k : Nat),
      k ≤ maxRetries →
      (∀ j, j < k → ∃ n, edge j = Except.ok n ∧ n ≠ expected) →
      edge k = Except.ok expected →
      waitForBackend edge expected =
        (⟨k + 1, List.replicate k timeBetweenAttempts ++
          (if k ≠ 0 then [waitForCdnProbeToPropagate] else [])⟩, Except.ok ()) := by
  intro edge expected k hk hpre hmatch
  have h := waitGo_success edge expected k 0 (maxRetries + 1) (by omega)
    (by simpa using hpre) (by simpa using hmatch)
  simpa [waitForBackend] using h

/-- An edge oracle that reports the expected backend from attempt 1 on. -/
def edgeConvW : EdgeOracle :=
  fun n => if n = 0 then Except.ok "wrong" else Except.ok "origin"

/-- Witness for `waitForBackend_convergence_behavior`: a match on the second
attempt gives one inter-attempt sleep and the propagation sleep. -/
theorem waitForBackend_convergence_behavior_witness :
    waitForBackend edgeConvW "origin" =
      (⟨2, [timeBetweenAttempts, waitForCdnProbeToPropagate]⟩, Except.ok ()) := by
  have h := waitForBackend_convergence_behavior edgeConvW "origin" 1 (by decide)
    (fun j hj => by
      have hj0 : j = 0 := by omega
      subst hj0
      exact ⟨"wrong", rfl, by decide⟩)
    rfl
  simpa using h

/-- C9: `waitForBackend` always terminates after at most `maxRetries + 1 =
21` request attempts (the loop runs `try = 0` through `20` inclusive); when
every attempt draws a non-matching response it performs exactly 21 attempts
and returns the exhaustion error, whose message reports only the
`maxRetries = 20` count — one fewer than the number of attempts made. -/
theorem waitForBackend_attempt_bound :
    ∀ (edge : EdgeOracle) (expected : String),
      (waitForBackend edge expected).1.attempts ≤ maxRetries + 1
      ∧ maxRetries + 1 = 21
      ∧ ((∀ j, j ≤ maxRetries → ∃ n, edge j = Except.ok n ∧ n ≠ expected) →
          (waitForBackend edge expected).1.attempts = maxRetries + 1
          ∧ (waitForBackend edge expected).2 = Except.error (waitErrMsg expected))
      ∧ waitErrMsg "origin" = "origin still not available after 20 attempts" := by
  intro edge expected
  refine ⟨waitGo_attempts_le edge expected (maxRetries + 1) 0, rfl, ?_, rfl⟩
  intro hall
  have h := waitGo_exhaust edge expected (maxRetries + 1) 0
    (fun j hj => by simpa using hall j (by omega))
  rw [waitForBackend, h]
  exact ⟨rfl, rfl⟩

/-- An edge oracle that always answers with a non-matching backend name. -/
def edgeAllWrongW : EdgeOracle := fun _ => Except.ok "someone-else"

/-- Witness for `waitForBackend_attempt_bound`: with only wrong answers,
21 attempts are made and the message reports 20. -/
theorem waitForBackend_attempt_bound_witness :
    (waitForBackend edgeAllWrongW "origin").1.attempts = 21
    ∧ (waitForBackend edgeAllWrongW "origin").2 =
        Except.error "origin still not available after 20 attempts" := by
  have h := (waitForBackend_attempt_bound edgeAllWrongW "origin").2.2.1
    (fun j hj => ⟨"someone-else", rfl, by decide⟩)
  refine ⟨h.1, ?_⟩
  rw [h.2]
  rfl

/-- C8: `testRequestsCachedDuration` issues exactly three requests. With
`respTTL = 0` (the `testRequestsCachedIndefinite` wrapper) it performs no
sleep, reports a request-count error unless origin received exactly 1
request, and reports no body error exactly when all three bodies equal the
first origin response. With `respTTL > 0` it sleeps `respTTL + respTTL / 4`
before the third request only, reports a count error unless origin received
exactly 2 requests, and reports no body error exactly when the first two
bodies equal the first origin response and the third equals the distinct
fresh origin response. -/
theorem testRequestsCachedDuration_spec :
    ∀ (received : Nat → String) (originCount : Nat),
      testRequestsCachedIndefinite received originCount
        = testRequestsCachedDuration 0 received originCount
      ∧ (testRequestsCachedDuration 0 received originCount).requests
          = [(1, none), (2, none), (3, none)]
      ∧ ((testRequestsCachedDuration 0 received originCount).countError = none
          ↔ originCount = 1)
      ∧ ((testRequestsCachedDuration 0 received originCount).bodyErrors = []
          ↔ received 1 = cachedDurationBody 0 ∧ received 2 = cachedDurationBody 0
            ∧ received 3 = cachedDurationBody 0)
      ∧ ∀ (respTTL : Nat), 0 < respTTL →
          (testRequestsCachedDuration respTTL received originCount).requests
            = [(1, none), (2, none), (3, some (respTTL + respTTL / 4))]
          ∧ ((testRequestsCachedDuration respTTL received originCount).countError = none
              ↔ originCount = 2)
          ∧ ((testRequestsCachedDuration respTTL received originCount).bodyErrors = []
              ↔ received 1 = cachedDurationBody 0 ∧ received 2 = cachedDurationBody 0
                ∧ received 3 = cachedDurationBody 1)
          ∧ cachedDurationBody 1 ≠ cachedDurationBody 0 := by
  intro received originCount
  refine ⟨rfl, ?_, ?_, ?_, ?_⟩
  · simp [testRequestsCachedDuration]
  · by_cases hc : originCount = 1 <;> simp [testRequestsCachedDuration, hc]
  · by_cases h1 : received 1 = responseCached <;>
      by_cases h2 : received 2 = responseCached <;>
      by_cases h3 : received 3 = responseCached <;>
      simp [testRequestsCachedDuration, cachedDurationBody, h1, h2, h3]
  · intro respTTL httl
    have hb : decide (respTTL > 0) = true := by simpa using httl
    refine ⟨?_, ?_, ?_, ?_⟩
    · simp [testRequestsCachedDuration, hb, httl]
    · by_cases hc : originCount = 2 <;> simp [testRequestsCachedDuration, hb, httl, hc]
    · by_cases h1 : received 1 = responseCached <;>
        by_cases h2 : received 2 = responseCached <;>
        by_cases h3 : received 3 = responseNotCached <;>
        simp [testRequestsCachedDuration, cachedDurationBody, hb, httl,
          responseCached, responseNotCached, h1, h2, h3]
    · simp [cachedDurationBody, responseCached, responseNotCached]

/-- The received bodies of a well-behaved TTL-expiry run: the first two
requests are served the cached first response, the third a fresh one. -/
def recvW : Nat → String :=
  fun n => if n ≤ 2 then "first response" else "subsequent response"

/-- Witness for `testRequestsCachedDuration_spec` at a concrete TTL of 8
seconds: the sleep before request 3 is 10 seconds and an origin count of 2
passes the final check. -/
theorem testRequestsCachedDuration_spec_witness :
    (testRequestsCachedDuration (8 * second) recvW 2).requests
      = [(1, none), (2, none), (3, some (8 * second + 8 * second / 4))]
    ∧ ((testRequestsCachedDuration (8 * second) recvW 2).countError = none ↔ 2 = 2) := by
  have h := (testRequestsCachedDuration_spec recvW 2).2.2.2.2 (8 * second) (by decide)
  exact ⟨h.1, h.2.1⟩

end CdnAcceptance
